import Mathlib

/-!
Model of `contracts_downloader.py`, the sharded smart-contract download
orchestrator.  The Python methods of `ContractsDownloadManager` are embedded
as Lean functions over explicit state: the external Etherscan fetch is a
parameter (attempt number to outcome), and the file system touched by the
script (the `not_valid.json` failure ledger and the per-address artifact
files) is carried in an explicit record.
-/

/-- Exception classes that can flow through the downloader.  The first three
constructors are the `etherscan.client` exception types named in the
`backoff` decorator on `download_contract`; the remaining constructors stand
for the other Python exceptions the model needs (`FileNotFoundError`,
`json.JSONDecodeError`, `KeyError`) plus an `Other` catch-all (for example an
auth or malformed-request failure of a kind not listed in the decorator). -/
inductive PyError where
  | EmptyResponse
  | BadRequest
  | ConnectionRefused
  | FileNotFoundError
  | JSONDecodeError
  | KeyError
  | Other
deriving DecidableEq

/-- Whether an exception is in the retry tuple of the `backoff.on_exception`
decorator on `download_contract`: `(EmptyResponse, BadRequest,
ConnectionRefused)`.  Every other exception propagates out of the wrapped
call at once. -/
def retryable : PyError → Bool
  | .EmptyResponse => true
  | .BadRequest => true
  | .ConnectionRefused => true
  | _ => false

/-- Result of one call to the wrapped fetch body (`api.get_sourcecode()`):
either a returned payload or a raised exception. -/
inductive FetchResult (α : Type) where
  | ok (a : α)
  | exn (e : PyError)
deriving DecidableEq

/-- Whether a fetch result is a raised exception. -/
def isExn {α : Type} : FetchResult α → Bool
  | .exn _ => true
  | .ok _ => false

/-- Semantics of `backoff.on_exception(backoff.expo, (EmptyResponse,
BadRequest, ConnectionRefused), max_tries=n)` around a fallible body.
`attempt k` is the outcome of the `k`-th call of the body (0-based), `fuel`
is the number of tries still allowed and `made` the number of calls already
made.  On an exception from the retry tuple the call is repeated while tries
remain; otherwise (or once tries are exhausted) the exception is re-raised.
The pair returned is the final outcome together with the total number of
calls made.  The backoff sleep between tries has no observable effect in
this model and is omitted. -/
def backoffFetch {α : Type} (attempt : ℕ → FetchResult α) :
    ℕ → ℕ → FetchResult α × ℕ
  | 0, made => (.exn .Other, made)
  | fuel + 1, made =>
    match attempt made with
    | .ok b => (.ok b, made + 1)
    | .exn e =>
      if retryable e = true ∧ fuel ≠ 0 then backoffFetch attempt fuel (made + 1)
      else (.exn e, made + 1)

/-- `ContractsDownloadManager.download_contract`: the fetch body wrapped by
the `backoff` decorator with `max_tries=8`.  Returns the final outcome and
the number of calls made to the body. -/
def download_contract {α : Type} (attempt : ℕ → FetchResult α) :
    FetchResult α × ℕ :=
  backoffFetch attempt 8 0

/-- `ContractsDownloadManager.calculate_shard_parameters`, for a manager
with fields `shard`, `index`, `skip`, applied to `address_count`.  Python's
`math.floor(address_count / self.shard)` is modelled as natural floor
division (exact for counts below 2^53).  Returns the triple in the order the
Python method returns it: `start, end, batch`. -/
def calculate_shard_parameters (shard index skip address_count : ℕ) :
    ℕ × ℕ × ℕ :=
  let batch := address_count / shard
  let start := skip + index * batch
  let stop := start + batch
  if index + 1 = shard then (start, address_count, batch)
  else (start, stop, batch)

/-- The 1-based line positions the `download` loop does not skip by its range
check `if i < start or i > end: continue`, for the plan computed by
`calculate_shard_parameters`.  The position is required to be an actual line
of the input (`1 ≤ i ≤ address_count`, since `enumerate(reader, start=1)`
yields exactly those). -/
def processesLine (shard index skip address_count i : ℕ) : Prop :=
  1 ≤ i ∧ i ≤ address_count ∧
    ¬ (i < (calculate_shard_parameters shard index skip address_count).1 ∨
       i > (calculate_shard_parameters shard index skip address_count).2.1)

instance (shard index skip address_count i : ℕ) :
    Decidable (processesLine shard index skip address_count i) := by
  unfold processesLine
  infer_instance

/-- The retry wrapper never calls the body more often than the fuel allows. -/
theorem backoffFetch_calls_le {α : Type} (attempt : ℕ → FetchResult α) :
    ∀ fuel made, (backoffFetch attempt fuel made).2 ≤ made + fuel := by
  intro fuel
  induction fuel with
  | zero => intro made; simp [backoffFetch]
  | succ n ih =>
    intro made
    cases h : attempt made with
    | ok b =>
      simp [backoffFetch, h]
    | exn e =>
      simp only [backoffFetch, h]
      by_cases hc : retryable e = true ∧ n ≠ 0
      · rw [if_pos hc]
        have := ih (made + 1)
        omega
      · rw [if_neg hc]
        simp

/-- If every call of the body raises a retryable exception, the retry wrapper
uses all of its fuel and ends by re-raising an exception. -/
theorem backoffFetch_exhaust {α : Type} (attempt : ℕ → FetchResult α)
    (h : ∀ n, ∃ e, attempt n = .exn e ∧ retryable e = true) :
    ∀ fuel made, 1 ≤ fuel →
      (backoffFetch attempt fuel made).2 = made + fuel ∧
      isExn (backoffFetch attempt fuel made).1 = true := by
  intro fuel
  induction fuel with
  | zero => intro made h0; omega
  | succ n ih =>
    intro made _
    obtain ⟨e, he, hr⟩ := h made
    simp only [backoffFetch, he]
    by_cases hn : n = 0
    · subst hn
      rw [if_neg (by simp)]
      simp [isExn]
    · rw [if_pos ⟨hr, hn⟩]
      obtain ⟨h1, h2⟩ := ih (made + 1) (by omega)
      constructor
      · omega
      · exact h2

/-- The end line of a non-final shard. -/
theorem calculate_shard_parameters_stop (shard index skip n : ℕ)
    (h : index + 1 ≠ shard) :
    (calculate_shard_parameters shard index skip n).2.1 =
      skip + index * (n / shard) + n / shard := by
  simp [calculate_shard_parameters, h]

/-- The start line of any shard. -/
theorem calculate_shard_parameters_start (shard index skip n : ℕ) :
    (calculate_shard_parameters shard index skip n).1 =
      skip + index * (n / shard) := by
  unfold calculate_shard_parameters
  by_cases h : index + 1 = shard <;> simp [h]

/-- Claim C1: it is not the case that the sets of 1-based line positions the
orchestrator loop leaves unskipped by its range check are disjoint for
distinct shards of the same plan.  For the plan with `address_count = 10`,
`shard = 2`, `skip = 0`, line 5 is processed by shard 0 (range `[0, 5]`,
both ends inclusive) and also by shard 1 (range `[5, 10]`). -/
theorem shard_ranges_not_disjoint :
    ¬ ∀ (i j l : ℕ), i < 2 → j < 2 → i ≠ j →
        ¬ (processesLine 2 i 0 10 l ∧ processesLine 2 j 0 10 l) :=
  fun h => h 0 1 5 (by decide) (by decide) (by decide) ⟨by decide, by decide⟩

/-- Claim C1 (amended): for a plan with `shard ≥ 2` and a positive batch
size, two distinct shards `i < j` can both process a line only when they are
adjacent (`j = i + 1`), and then only the single boundary line
`skip + j * batch`, which is the inclusive end of shard `i` and the inclusive
start of shard `j`; apart from that shared boundary line the processed sets
are disjoint. -/
theorem shard_overlap_only_boundary (address_count shard skip i j l : ℕ)
    (_hs : 2 ≤ shard) (hij : i < j) (hj : j < shard)
    (hb : 1 ≤ address_count / shard)
    (hi : processesLine shard i skip address_count l)
    (hjl : processesLine shard j skip address_count l) :
    j = i + 1 ∧ l = skip + j * (address_count / shard) := by
  obtain ⟨-, -, hi3⟩ := hi
  obtain ⟨-, -, hj3⟩ := hjl
  rw [not_or, not_lt, not_lt] at hi3 hj3
  obtain ⟨hi_lo, hi_hi⟩ := hi3
  obtain ⟨hj_lo, hj_hi⟩ := hj3
  have hne : i + 1 ≠ shard := by omega
  rw [calculate_shard_parameters_stop shard i skip address_count hne] at hi_hi
  rw [calculate_shard_parameters_start shard j skip address_count] at hj_lo
  set b := address_count / shard with hbdef
  have hchain : skip + j * b ≤ skip + i * b + b := le_trans hj_lo hi_hi
  have hmul : j * b ≤ (i + 1) * b := by
    rw [Nat.succ_mul]
    omega
  have hji : j ≤ i + 1 := Nat.le_of_mul_le_mul_right hmul (by omega)
  have hj_eq : j = i + 1 := by omega
  refine ⟨hj_eq, ?_⟩
  subst hj_eq
  have : skip + (i + 1) * b = skip + i * b + b := by
    rw [Nat.succ_mul, ← Nat.add_assoc]
  omega

/-- Claim C1 (amended) at a concrete input: shards 0 and 1 of the plan with
10 addresses, 2 shards and no skip share exactly the boundary line 5. -/
theorem shard_overlap_only_boundary_check :
    (1 : ℕ) = 0 + 1 ∧ (5 : ℕ) = 0 + 1 * (10 / 2) :=
  shard_overlap_only_boundary 10 2 0 0 1 5 (by decide) (by decide) (by decide)
    (by decide) (by decide) (by decide)

/-- Claim C2: `calculate_shard_parameters` returns start line
`skip + index * batch`, end line `start + batch` (or `address_count` for the
final shard), and batch size `⌊address_count / shard⌋`, for any valid shard
specification. -/
theorem calculate_shard_parameters_formula (address_count shard index skip : ℕ)
    (h1 : 1 ≤ shard) (_h2 : index < shard) :
    calculate_shard_parameters shard index skip address_count =
      (skip + index * (address_count / shard),
       if index = shard - 1 then address_count
       else skip + index * (address_count / shard) + address_count / shard,
       address_count / shard) := by
  simp only [calculate_shard_parameters]
  rcases eq_or_ne (index + 1) shard with h | h
  · rw [if_pos h, if_pos (show index = shard - 1 by omega)]
  · rw [if_neg h, if_neg (show ¬ index = shard - 1 by omega)]

/-- Claim C2 at a concrete input: the last of two shards over ten addresses
with no skip gets the range `[5, 10]` with batch size 5. -/
theorem calculate_shard_parameters_formula_check :
    calculate_shard_parameters 2 1 0 10 =
      (0 + 1 * (10 / 2),
       if 1 = 2 - 1 then 10 else 0 + 1 * (10 / 2) + 10 / 2,
       10 / 2) :=
  calculate_shard_parameters_formula 10 2 1 0 (by decide) (by decide)

/-- Claim C3: `download_contract` calls the wrapped fetch body at most 8
times, and when every call of the body raises an exception from the retry
tuple, it calls the body exactly 8 times and then re-raises, so the caller
sees a terminal error. -/
theorem download_contract_retry_bound {α : Type}
    (attempt other : ℕ → FetchResult α)
    (h : ∀ n, ∃ e, attempt n = .exn e ∧ retryable e = true) :
    (download_contract other).2 ≤ 8 ∧
    (download_contract attempt).2 = 8 ∧
    isExn (download_contract attempt).1 = true := by
  refine ⟨?_, ?_, ?_⟩
  · simpa using backoffFetch_calls_le other 8 0
  · simpa using (backoffFetch_exhaust attempt h 8 0 (by omega)).1
  · exact (backoffFetch_exhaust attempt h 8 0 (by omega)).2

/-- Claim C3 at a concrete input: a body that raises `EmptyResponse` on every
call is called exactly 8 times and the error then escapes. -/
theorem download_contract_retry_bound_check :
    (download_contract
        (fun _ => (FetchResult.exn .EmptyResponse : FetchResult Unit))).2 ≤ 8 ∧
    (download_contract
        (fun _ => (FetchResult.exn .EmptyResponse : FetchResult Unit))).2 = 8 ∧
    isExn (download_contract
        (fun _ => (FetchResult.exn .EmptyResponse : FetchResult Unit))).1 = true :=
  download_contract_retry_bound
    (fun _ => .exn .EmptyResponse) (fun _ => .exn .EmptyResponse)
    (fun _ => ⟨.EmptyResponse, rfl, rfl⟩)

/-- Claim C4: false as stated — `BadRequest`, the malformed-request error the
claim classifies as non-transient, is in the retry tuple of the `backoff`
decorator, so a body that always raises `BadRequest` is called 8 times, not
once. -/
theorem bad_request_is_retried :
    (download_contract
        (fun _ => (FetchResult.exn .BadRequest : FetchResult Unit))).2 = 8 ∧
    retryable .BadRequest = true :=
  ⟨rfl, rfl⟩

/-- Claim C4 (amended): when the first call of the body raises an exception
outside the retry tuple `(EmptyResponse, BadRequest, ConnectionRefused)`,
`download_contract` re-raises it immediately after exactly one call. -/
theorem nonretryable_single_attempt {α : Type}
    (attempt : ℕ → FetchResult α) (e : PyError)
    (h0 : attempt 0 = .exn e) (hr : retryable e = false) :
    download_contract attempt = (.exn e, 1) := by
  simp [download_contract, backoffFetch, h0, hr]

/-- Claim C4 (amended) at a concrete input: a body that raises an
unclassified exception is called once and the exception escapes. -/
theorem nonretryable_single_attempt_check :
    download_contract (fun _ => (FetchResult.exn .Other : FetchResult Unit)) =
      (.exn .Other, 1) :=
  nonretryable_single_attempt (fun _ => .exn .Other) .Other rfl rfl

/-- The contents of `not_valid.json` as found on disk: a JSON array of
address strings, some other valid JSON document, or text that is not valid
JSON at all. -/
inductive LedgerFileContent where
  | jsonArr (keys : List String)
  | jsonNonArr
  | malformed
deriving DecidableEq

/-- A value as returned by `json.load` on the ledger file: the list case, or
some non-list JSON value. -/
inductive LoadedLedger where
  | arr (keys : List String)
  | nonArr
deriving DecidableEq

/-- `ContractsDownloadManager.load_not_valid_addresses`: returns `[]` when
`not_valid.json` is absent, otherwise the result of `json.load`, which
raises `json.JSONDecodeError` on text that is not valid JSON and returns the
decoded value unexamined otherwise. -/
def load_not_valid_addresses : Option LedgerFileContent →
    Except PyError LoadedLedger
  | none => .ok (.arr [])
  | some (.jsonArr ks) => .ok (.arr ks)
  | some .jsonNonArr => .ok .nonArr
  | some .malformed => .error .JSONDecodeError

/-- Whether loading the ledger raised an exception. -/
def isRaise : Except PyError LoadedLedger → Bool
  | .error _ => true
  | .ok _ => false

/-- The mutable dict `meta = {"token": self.token, "empty": 0}` built at the
top of `download` and handed to `pbar.set_postfix` on every progress-bar
refresh. -/
structure Meta where
  token : String
  empty : ℕ
deriving DecidableEq

/-- Observable state of one run of `download`: the ledger file and the
per-address artifact files on disk, the in-memory `self.not_valid` list, the
progress `meta` dict, the successive snapshots handed to
`pbar.set_postfix` (one per `update_progress_bar` call), the number of
`pbar.update(1)` calls, and the addresses on which `download_contract` was
invoked. -/
structure RunState where
  notValidFile : Option LedgerFileContent
  artifacts : List (String × String)
  notValid : List String
  meta : Meta
  metaLog : List Meta
  updateCount : ℕ
  attempted : List String
deriving DecidableEq

/-- The `except` branch of `handle_file_download`: append the address to
`self.not_valid` and rewrite `not_valid.json` with the whole list before
returning. -/
def recordFailure (key : String) (st : RunState) : RunState :=
  { st with
    notValid := st.notValid ++ [key]
    notValidFile := some (.jsonArr (st.notValid ++ [key])) }

/-- Write (create or overwrite) the artifact file of one address, as
`open(contract_path, 'w')` followed by a full write does. -/
def setArtifact : List (String × String) → String → String →
    List (String × String)
  | [], key, c => [(key, c)]
  | (k, v) :: rest, key, c =>
    if k = key then (key, c) :: rest else (k, v) :: setArtifact rest key c

/-- Read the artifact file of one address, `none` when it does not exist. -/
def getArtifact : List (String × String) → String → Option String
  | [], _ => none
  | (k, v) :: rest, key => if k = key then some v else getArtifact rest key

/-- Python's `s.replace(pat, rep, 1)` on characters: replace the leftmost
occurrence of `pat`, if any. -/
def replaceFirst : List Char → List Char → List Char → List Char
  | [], _, _ => []
  | c :: rest, pat, rep =>
    if pat.isPrefixOf (c :: rest) then rep ++ (c :: rest).drop pat.length
    else c :: replaceFirst rest pat rep

/-- The envelope unwrapping in `handle_file_download`: replace the first
`"{{"` with `"{"` and the last `"}}"` with `"}"` (the latter done in the
source by reversing, replacing the first occurrence, and reversing back). -/
def unwrapSource (sc : String) : String :=
  let s1 := replaceFirst sc.data "\x7b\x7b".data "\x7b".data
  let s2 :=
    (replaceFirst s1.reverse "\x7d\x7d".data.reverse "\x7d".data.reverse).reverse
  String.mk s2

/-- `ContractsDownloadManager.handle_file_download` for one address.  The
fetched payload is modelled as `Option String`: `some sc` when
`data[0]['SourceCode']` evaluates to the string `sc`, `none` when that
subscription itself raises (a payload of an unexpected shape).  The `try`
body downloads, counts an empty source (Python falsiness of the string) in
`meta["empty"]`, and writes the unwrapped source to the artifact file (the
JSON string serialization `json.dump` applies to it is left as the string
value); `except Exception` records the failure in the ledger; `finally`
hands the current `meta` to the progress bar. -/
def handle_file_download (attempt : ℕ → FetchResult (Option String))
    (key : String) (st : RunState) : RunState :=
  let st0 := { st with attempted := st.attempted ++ [key] }
  let st1 :=
    match (download_contract attempt).1 with
    | .ok (some sc) =>
      let st2 :=
        if sc = "" then { st0 with meta := { st0.meta with empty := st0.meta.empty + 1 } }
        else st0
      { st2 with artifacts := setArtifact st2.artifacts key (unwrapSource sc) }
    | .ok none => recordFailure key st0
    | .exn _ => recordFailure key st0
  { st1 with metaLog := st1.metaLog ++ [st1.meta] }

/-- `ContractsDownloadManager.extract_sol_files` on the artifact file of one
address, restricted to the state the model tracks.  Opening a missing file
raises `FileNotFoundError`, which the method does not catch; when the file
exists, the method only reads it and writes `.sol` files under
`output/contracts` (untracked here), and its `except` clauses swallow
`json.JSONDecodeError` and `KeyError`, so no exception escapes. -/
def extract_sol_files (st : RunState) (key : String) :
    Except PyError RunState :=
  match getArtifact st.artifacts key with
  | none => .error .FileNotFoundError
  | some _ => .ok st

/-- The state carried by a loop outcome, whether the loop returned normally
or an exception escaped (the side effects made before the raise remain
observable). -/
def stepState : Except (PyError × RunState) RunState → RunState
  | .ok st => st
  | .error (_, st) => st

/-- One iteration of the `for i, line in enumerate(reader, start=1)` loop in
`download`: skip lines outside `[start, end]` (the check
`if i < start or i > end: continue`), skip addresses already in
`self.not_valid`, otherwise run `handle_file_download`, then
`extract_sol_files` (whose uncaught exception aborts the run), then
`pbar.update(1)`. -/
def downloadStep (fetch : String → ℕ → FetchResult (Option String))
    (start stop i : ℕ) (key : String) (st : RunState) :
    Except (PyError × RunState) RunState :=
  if i < start ∨ i > stop then .ok st
  else if key ∈ st.notValid then .ok st
  else
    match extract_sol_files (handle_file_download (fetch key) key st) key with
    | .error e => .error (e, handle_file_download (fetch key) key st)
    | .ok st2 => .ok { st2 with updateCount := st2.updateCount + 1 }

/-- The whole loop of `download`, iterating over the remaining lines with
`i` the 1-based position of the first of them. -/
def downloadLoop (fetch : String → ℕ → FetchResult (Option String))
    (start stop : ℕ) : ℕ → List String → RunState →
    Except (PyError × RunState) RunState
  | _, [], st => .ok st
  | i, key :: rest, st =>
    match downloadStep fetch start stop i key st with
    | .error es => .error es
    | .ok st' => downloadLoop fetch start stop (i + 1) rest st'

/-- The state at the top of the loop in `download`: the disk as given, the
loaded `self.not_valid` list, `meta = {"token": token, "empty": 0}`, and no
progress-bar activity or fetch attempts yet. -/
def initState (file0 : Option LedgerFileContent)
    (arts0 : List (String × String)) (token : String) (ks : List String) :
    RunState :=
  { notValidFile := file0
    artifacts := arts0
    notValid := ks
    meta := { token := token, empty := 0 }
    metaLog := []
    updateCount := 0
    attempted := [] }

/-- The trailing `if self.not_valid: json.dump(self.not_valid, fd)` that
`download` runs after the loop completes normally. -/
def flushLedger (st : RunState) : RunState :=
  if st.notValid = [] then st
  else { st with notValidFile := some (.jsonArr st.notValid) }

/-- Outcome of a whole `download` call: an exception from loading the ledger
aborts before the loop; a loaded non-list ledger value makes the loop's
membership and append operations fail on first use (not modelled further);
an uncaught exception inside the loop aborts it mid-run; otherwise the run
finishes and flushes the ledger. -/
inductive DownloadResult where
  | loadAbort (e : PyError)
  | nonListLedger
  | aborted (e : PyError) (st : RunState)
  | finished (st : RunState)
deriving DecidableEq

/-- The final run state a `download` outcome left behind, when one exists. -/
def resultState : DownloadResult → Option RunState
  | .loadAbort _ => none
  | .nonListLedger => none
  | .aborted _ st => some st
  | .finished st => some st

/-- `ContractsDownloadManager.download`: load the ledger, count the input
lines, compute the shard range, run the loop from line 1, and flush the
ledger after a normal exit.  `lines` is the first CSV column of each input
line in file order; `fetch key k` is the outcome of the `k`-th call of the
external fetch for `key`. -/
def download (token : String) (shard index skip : ℕ)
    (fetch : String → ℕ → FetchResult (Option String))
    (lines : List String) (file0 : Option LedgerFileContent)
    (arts0 : List (String × String)) : DownloadResult :=
  match load_not_valid_addresses file0 with
  | .error e => .loadAbort e
  | .ok .nonArr => .nonListLedger
  | .ok (.arr ks) =>
    match downloadLoop fetch
        (calculate_shard_parameters shard index skip lines.length).1
        (calculate_shard_parameters shard index skip lines.length).2.1
        1 lines (initState file0 arts0 token ks) with
    | .error es => .aborted es.1 es.2
    | .ok stf => .finished (flushLedger stf)

/-- `handle_file_download` always appends exactly one snapshot of the current
`meta` dict to the progress-bar log (the `finally` clause), and that snapshot
carries the unchanged token. -/
theorem handle_file_download_log (attempt : ℕ → FetchResult (Option String))
    (key : String) (st : RunState) :
    ∃ m : Meta,
      (handle_file_download attempt key st).metaLog = st.metaLog ++ [m] ∧
      m.token = st.meta.token := by
  unfold handle_file_download
  cases h : (download_contract attempt).1 with
  | ok b =>
    cases b with
    | none => exact ⟨st.meta, by simp [recordFailure], rfl⟩
    | some sc =>
      by_cases hsc : sc = ""
      · exact ⟨{ st.meta with empty := st.meta.empty + 1 }, by simp [hsc], rfl⟩
      · exact ⟨st.meta, by simp [hsc], rfl⟩
  | exn e => exact ⟨st.meta, by simp [recordFailure], rfl⟩

/-- `handle_file_download` never changes the token entry of `meta`. -/
theorem handle_file_download_token (attempt : ℕ → FetchResult (Option String))
    (key : String) (st : RunState) :
    (handle_file_download attempt key st).meta.token = st.meta.token := by
  unfold handle_file_download
  cases h : (download_contract attempt).1 with
  | ok b =>
    cases b with
    | none => simp [recordFailure]
    | some sc => by_cases hsc : sc = "" <;> simp [hsc]
  | exn e => simp [recordFailure]

/-- `handle_file_download` records exactly one fetch attempt, on its own
address. -/
theorem handle_file_download_attempted
    (attempt : ℕ → FetchResult (Option String)) (key : String)
    (st : RunState) :
    (handle_file_download attempt key st).attempted = st.attempted ++ [key] := by
  unfold handle_file_download
  cases h : (download_contract attempt).1 with
  | ok b =>
    cases b with
    | none => simp [recordFailure]
    | some sc => by_cases hsc : sc = "" <;> simp [hsc]
  | exn e => simp [recordFailure]

/-- `handle_file_download` leaves `self.not_valid` alone or appends its own
address to it. -/
theorem handle_file_download_notValid
    (attempt : ℕ → FetchResult (Option String)) (key : String)
    (st : RunState) :
    (handle_file_download attempt key st).notValid = st.notValid ∨
    (handle_file_download attempt key st).notValid = st.notValid ++ [key] := by
  unfold handle_file_download
  cases h : (download_contract attempt).1 with
  | ok b =>
    cases b with
    | none => exact .inr (by simp [recordFailure])
    | some sc =>
      by_cases hsc : sc = ""
      · exact .inl (by simp [hsc])
      · exact .inl (by simp [hsc])
  | exn e => exact .inr (by simp [recordFailure])

/-- `extract_sol_files` either returns with the tracked state unchanged or
raises `FileNotFoundError`. -/
theorem extract_sol_files_cases (st : RunState) (key : String) :
    extract_sol_files st key = .ok st ∨
    extract_sol_files st key = .error .FileNotFoundError := by
  cases h : getArtifact st.artifacts key with
  | none => exact .inr (by simp [extract_sol_files, h])
  | some v => exact .inl (by simp [extract_sol_files, h])

/-- A key already in `self.not_valid` stays there across one loop iteration
and is never handed to `download_contract` by it. -/
theorem downloadStep_keyInv (fetch : String → ℕ → FetchResult (Option String))
    (start stop i : ℕ) (k key : String) (st : RunState)
    (h1 : key ∈ st.notValid) (h2 : key ∉ st.attempted) :
    key ∈ (stepState (downloadStep fetch start stop i k st)).notValid ∧
    key ∉ (stepState (downloadStep fetch start stop i k st)).attempted := by
  unfold downloadStep
  by_cases hr : i < start ∨ i > stop
  · rw [if_pos hr]
    exact ⟨h1, h2⟩
  · rw [if_neg hr]
    by_cases hm : k ∈ st.notValid
    · rw [if_pos hm]
      exact ⟨h1, h2⟩
    · rw [if_neg hm]
      have hkk : key ≠ k := fun hk => hm (hk ▸ h1)
      have hatt := handle_file_download_attempted (fetch k) k st
      have hmemA : key ∉ (handle_file_download (fetch k) k st).attempted := by
        rw [hatt]
        simp [h2, hkk]
      have hmemV : key ∈ (handle_file_download (fetch k) k st).notValid := by
        rcases handle_file_download_notValid (fetch k) k st with hv | hv <;>
          rw [hv] <;> simp [h1]
      rcases extract_sol_files_cases (handle_file_download (fetch k) k st) k
          with hx | hx
      · rw [hx]
        exact ⟨hmemV, hmemA⟩
      · rw [hx]
        exact ⟨hmemV, hmemA⟩

/-- A key already in `self.not_valid` at loop entry is never handed to
`download_contract` anywhere in the loop, whether the loop completes or an
exception aborts it. -/
theorem downloadLoop_keyInv (fetch : String → ℕ → FetchResult (Option String))
    (start stop : ℕ) (key : String) :
    ∀ (lines : List String) (i : ℕ) (st : RunState),
      key ∈ st.notValid → key ∉ st.attempted →
      key ∉ (stepState (downloadLoop fetch start stop i lines st)).attempted := by
  intro lines
  induction lines with
  | nil => intro i st _ h2; exact h2
  | cons k rest ih =>
    intro i st h1 h2
    simp only [downloadLoop]
    cases hs : downloadStep fetch start stop i k st with
    | error es =>
      have hinv := downloadStep_keyInv fetch start stop i k key st h1 h2
      rw [hs] at hinv
      exact hinv.2
    | ok st' =>
      have hinv := downloadStep_keyInv fetch start stop i k key st h1 h2
      rw [hs] at hinv
      exact ih (i + 1) st' hinv.1 hinv.2

/-- One loop iteration keeps the token entry of `meta` and adds only
token-carrying snapshots to the progress-bar log. -/
theorem downloadStep_tokenInv (t : String)
    (fetch : String → ℕ → FetchResult (Option String))
    (start stop i : ℕ) (k : String) (st : RunState)
    (h1 : st.meta.token = t) (h2 : ∀ m ∈ st.metaLog, m.token = t) :
    (stepState (downloadStep fetch start stop i k st)).meta.token = t ∧
    ∀ m ∈ (stepState (downloadStep fetch start stop i k st)).metaLog,
      m.token = t := by
  unfold downloadStep
  by_cases hr : i < start ∨ i > stop
  · rw [if_pos hr]
    exact ⟨h1, h2⟩
  · rw [if_neg hr]
    by_cases hm : k ∈ st.notValid
    · rw [if_pos hm]
      exact ⟨h1, h2⟩
    · rw [if_neg hm]
      have htok := handle_file_download_token (fetch k) k st
      obtain ⟨m, hlog, hmt⟩ := handle_file_download_log (fetch k) k st
      have hall : ∀ m' ∈ (handle_file_download (fetch k) k st).metaLog,
          m'.token = t := by
        rw [hlog]
        intro m' hm'
        rcases List.mem_append.mp hm' with hm' | hm'
        · exact h2 m' hm'
        · rw [List.mem_singleton.mp hm']
          rw [hmt, h1]
      rcases extract_sol_files_cases (handle_file_download (fetch k) k st) k
          with hx | hx
      · rw [hx]
        exact ⟨htok.trans h1, hall⟩
      · rw [hx]
        exact ⟨htok.trans h1, hall⟩

/-- Across the whole loop, every snapshot handed to the progress bar carries
the run's token. -/
theorem downloadLoop_tokenInv (t : String)
    (fetch : String → ℕ → FetchResult (Option String)) (start stop : ℕ) :
    ∀ (lines : List String) (i : ℕ) (st : RunState),
      st.meta.token = t → (∀ m ∈ st.metaLog, m.token = t) →
      ∀ m ∈ (stepState (downloadLoop fetch start stop i lines st)).metaLog,
        m.token = t := by
  intro lines
  induction lines with
  | nil => intro i st _ h2; exact h2
  | cons k rest ih =>
    intro i st h1 h2
    simp only [downloadLoop]
    cases hs : downloadStep fetch start stop i k st with
    | error es =>
      have hinv := downloadStep_tokenInv t fetch start stop i k st h1 h2
      rw [hs] at hinv
      exact hinv.2
    | ok st' =>
      have hinv := downloadStep_tokenInv t fetch start stop i k st h1 h2
      rw [hs] at hinv
      exact ih (i + 1) st' hinv.1 hinv.2

/-- The post-loop ledger flush does not touch the attempt record. -/
theorem flushLedger_attempted (st : RunState) :
    (flushLedger st).attempted = st.attempted := by
  unfold flushLedger
  by_cases h : st.notValid = [] <;> simp [h]

/-- The post-loop ledger flush does not touch the progress-bar log. -/
theorem flushLedger_metaLog (st : RunState) :
    (flushLedger st).metaLog = st.metaLog := by
  unfold flushLedger
  by_cases h : st.notValid = [] <;> simp [h]

/-- Claim C5, at the failing input: a single-key run whose fetch raises a
non-retryable error records the key in the in-memory ledger and persists it
to `not_valid.json` before moving on, but then `extract_sol_files` opens the
artifact file that the failed download never wrote, and the uncaught
`FileNotFoundError` aborts the whole run instead of letting it continue with
the next key. -/
theorem failed_key_aborts_run :
    download "t" 1 0 0 (fun _ _ => .exn .Other) ["0xabc"] none [] =
      .aborted .FileNotFoundError
        { notValidFile := some (.jsonArr ["0xabc"])
          artifacts := []
          notValid := ["0xabc"]
          meta := { token := "t", empty := 0 }
          metaLog := [{ token := "t", empty := 0 }]
          updateCount := 0
          attempted := ["0xabc"] } := by
  rfl

/-- Claim C6: false as stated — an in-range key that is already in the
failure ledger is skipped before the progress-bar update, so the Progress
Reporter is updated zero times for it, not once.  Line 1 of a one-line input
is in the range of the single shard, yet the step leaves the state (and in
particular the empty `set_postfix` log) untouched. -/
theorem skipped_key_no_meta_update :
    processesLine 1 0 0 1 1 ∧
    downloadStep (fun _ _ => .exn .Other) 0 1 1 "0xbad"
        (initState (some (.jsonArr ["0xbad"])) [] "t" ["0xbad"]) =
      .ok (initState (some (.jsonArr ["0xbad"])) [] "t" ["0xbad"]) ∧
    (initState (some (.jsonArr ["0xbad"])) [] "t" ["0xbad"]).metaLog = [] :=
  ⟨by decide, rfl, rfl⟩

/-- Claim C6 (amended): for a key whose line position passes the range
check, the loop iteration updates the Progress Reporter exactly once when
the key is not in the failure ledger — whether the outcome is Written,
Failed, or an abort via `extract_sol_files` — and zero times when the key is
skipped because it is already in the ledger. -/
theorem inrange_meta_update_count
    (fetch : String → ℕ → FetchResult (Option String))
    (start stop i : ℕ) (key : String) (st : RunState)
    (hin : ¬ (i < start ∨ i > stop)) :
    (stepState (downloadStep fetch start stop i key st)).metaLog.length =
      st.metaLog.length + (if key ∈ st.notValid then 0 else 1) := by
  unfold downloadStep
  rw [if_neg hin]
  by_cases hm : key ∈ st.notValid
  · rw [if_pos hm]
    simp [stepState, hm]
  · rw [if_neg hm]
    obtain ⟨m, hlog, -⟩ := handle_file_download_log (fetch key) key st
    rcases extract_sol_files_cases (handle_file_download (fetch key) key st)
        key with hx | hx
    · rw [hx]
      simp [stepState, hlog, hm]
    · rw [hx]
      simp [stepState, hlog, hm]

/-- Claim C6 (amended) at a concrete input: an in-range key not in the
ledger gets exactly one progress update. -/
theorem inrange_meta_update_count_check :
    (stepState (downloadStep (fun _ _ => FetchResult.ok (some "")) 0 1 1 "0xa"
        (initState none [] "t" []))).metaLog.length =
      (initState none [] "t" []).metaLog.length +
        (if "0xa" ∈ (initState none [] "t" []).notValid then 0 else 1) :=
  inrange_meta_update_count (fun _ _ => .ok (some "")) 0 1 1 "0xa"
    (initState none [] "t" []) (by decide)

/-- Claim C7: false as stated — a present `not_valid.json` holding valid
JSON that is not an array (for example the document `42`) is not a valid
serialized ledger, yet `json.load` succeeds on it and
`load_not_valid_addresses` returns the decoded value instead of raising. -/
theorem nonarray_ledger_not_raised :
    load_not_valid_addresses (some .jsonNonArr) = .ok .nonArr ∧
    isRaise (load_not_valid_addresses (some .jsonNonArr)) = false :=
  ⟨rfl, rfl⟩

/-- Claim C7 (amended): loading returns the empty list when the ledger file
is absent and raises `json.JSONDecodeError` when the file is present but not
valid JSON; a present file that is valid JSON is returned as decoded,
without any validation that it is an array of keys. -/
theorem load_ledger_behaviour :
    load_not_valid_addresses none = .ok (.arr []) ∧
    load_not_valid_addresses (some .malformed) = .error .JSONDecodeError ∧
    ∀ ks, load_not_valid_addresses (some (.jsonArr ks)) = .ok (.arr ks) :=
  ⟨rfl, rfl, fun _ => rfl⟩

/-- Claim C8: after the `except` branch of `handle_file_download` has
recorded a key, loading the persisted ledger file yields a list containing
that key, and a re-run of any shard over any input starting from that file
state never hands the key to `download_contract`, whether the re-run
finishes or aborts. -/
theorem ledger_monotonic (st0 : RunState) (key token : String)
    (shard index skip : ℕ)
    (fetch : String → ℕ → FetchResult (Option String))
    (lines : List String) (arts0 : List (String × String)) (st' : RunState)
    (hrun : resultState (download token shard index skip fetch lines
        (recordFailure key st0).notValidFile arts0) = some st') :
    load_not_valid_addresses (recordFailure key st0).notValidFile =
      .ok (.arr (st0.notValid ++ [key])) ∧
    key ∈ st0.notValid ++ [key] ∧
    key ∉ st'.attempted := by
  refine ⟨rfl, by simp, ?_⟩
  unfold download at hrun
  simp only [recordFailure, load_not_valid_addresses] at hrun
  have hinit1 : key ∈ (initState (some (.jsonArr (st0.notValid ++ [key])))
      arts0 token (st0.notValid ++ [key])).notValid := by
    simp [initState]
  have hinit2 : key ∉ (initState (some (.jsonArr (st0.notValid ++ [key])))
      arts0 token (st0.notValid ++ [key])).attempted := by
    simp [initState]
  have hloop := downloadLoop_keyInv fetch
    (calculate_shard_parameters shard index skip lines.length).1
    (calculate_shard_parameters shard index skip lines.length).2.1
    key lines 1
    (initState (some (.jsonArr (st0.notValid ++ [key]))) arts0 token
      (st0.notValid ++ [key])) hinit1 hinit2
  cases hl : downloadLoop fetch
      (calculate_shard_parameters shard index skip lines.length).1
      (calculate_shard_parameters shard index skip lines.length).2.1
      1 lines (initState (some (.jsonArr (st0.notValid ++ [key]))) arts0 token
        (st0.notValid ++ [key])) with
  | error es =>
    rw [hl] at hrun hloop
    simp only [resultState, Option.some.injEq] at hrun
    rw [← hrun]
    exact hloop
  | ok stf =>
    rw [hl] at hrun hloop
    simp only [resultState, Option.some.injEq] at hrun
    rw [← hrun, flushLedger_attempted]
    exact hloop

/-- Claim C8 at a concrete input: after recording `"0xbad"` from a fresh
state, the persisted ledger loads back containing it, and a re-run of the
single shard over the same one-line input never attempts it. -/
theorem ledger_monotonic_check :
    load_not_valid_addresses
        (recordFailure "0xbad" (initState none [] "t" [])).notValidFile =
      .ok (.arr ((initState none [] "t" []).notValid ++ ["0xbad"])) ∧
    "0xbad" ∈ (initState none [] "t" []).notValid ++ ["0xbad"] ∧
    "0xbad" ∉ (initState (some (.jsonArr ["0xbad"])) [] "t"
        ["0xbad"]).attempted :=
  ledger_monotonic (initState none [] "t" []) "0xbad" "t" 1 0 0
    (fun _ _ => .ok (some "s")) ["0xbad"] [] _ rfl

/-- Claim C9: when the fetch raises (a terminal error) or the payload
subscription `data[0]['SourceCode']` raises, `handle_file_download` takes the
`except` branch before ever opening the artifact file for writing, so the
artifact files — in particular any pre-existing one for this key — are left
exactly as they were. -/
theorem failed_fetch_preserves_artifacts
    (attempt : ℕ → FetchResult (Option String)) (key : String)
    (st : RunState)
    (h : isExn (download_contract attempt).1 = true ∨
        (download_contract attempt).1 = .ok none) :
    (handle_file_download attempt key st).artifacts = st.artifacts := by
  unfold handle_file_download
  cases hd : (download_contract attempt).1 with
  | ok b =>
    cases b with
    | none => simp [recordFailure]
    | some sc =>
      rcases h with h | h
      · rw [hd] at h
        simp [isExn] at h
      · rw [hd] at h
        simp at h
  | exn e => simp [recordFailure]

/-- Claim C9 at a concrete input: a terminally failing fetch leaves a
pre-existing artifact file for the key untouched. -/
theorem failed_fetch_preserves_artifacts_check :
    (handle_file_download (fun _ => FetchResult.exn .Other) "k"
        (initState none [("k", "old")] "t" [])).artifacts =
      (initState none [("k", "old")] "t" []).artifacts :=
  failed_fetch_preserves_artifacts (fun _ => .exn .Other) "k"
    (initState none [("k", "old")] "t" []) (.inl rfl)

/-- Claim C10: every `meta` snapshot a run of `download` hands to
`pbar.set_postfix` carries the API token under the `"token"` entry, so the
token is part of the rendered progress output whenever a key is processed. -/
theorem meta_contains_token (token : String) (shard index skip : ℕ)
    (fetch : String → ℕ → FetchResult (Option String))
    (lines : List String) (file0 : Option LedgerFileContent)
    (arts0 : List (String × String)) (st' : RunState)
    (hrun : resultState (download token shard index skip fetch lines file0
        arts0) = some st') :
    (st'.metaLog.all fun m => m.token == token) = true := by
  rw [List.all_eq_true]
  intro m hm
  rw [beq_iff_eq]
  unfold download at hrun
  split at hrun
  · simp [resultState] at hrun
  · simp [resultState] at hrun
  · rename_i ks hload
    have hloop := downloadLoop_tokenInv token fetch
      (calculate_shard_parameters shard index skip lines.length).1
      (calculate_shard_parameters shard index skip lines.length).2.1
      lines 1 (initState file0 arts0 token ks) rfl
      (by intro m' hm'; simp [initState] at hm')
    split at hrun
    · rename_i es hl
      rw [hl] at hloop
      simp only [resultState, Option.some.injEq] at hrun
      rw [← hrun] at hm
      exact hloop m hm
    · rename_i stf hl
      rw [hl] at hloop
      simp only [resultState, Option.some.injEq] at hrun
      rw [← hrun, flushLedger_metaLog] at hm
      exact hloop m hm

/-- Claim C10 at a concrete input: a one-key run's single progress snapshot
carries the token. -/
theorem meta_contains_token_check :
    ((({ notValidFile := none
         artifacts := [("0xa", "")]
         notValid := []
         meta := { token := "tok", empty := 1 }
         metaLog := [{ token := "tok", empty := 1 }]
         updateCount := 1
         attempted := ["0xa"] } : RunState)).metaLog.all
      fun m => m.token == "tok") = true :=
  meta_contains_token "tok" 1 0 0 (fun _ _ => .ok (some "")) ["0xa"] none []
    _ rfl
